import Mathlib

/-!
Shallow embedding of `investpy/indices.py` (the index-catalog scraper and its
query layer) and proofs about it.

Modelling conventions:
* Python strings are Lean `String`s; the Python string methods used by the
  source (`strip`, `lower`, `replace`, `in`) are modelled by the executable
  functions `pyStrip`, `pyLower`, `pyReplace`, `strContains` below, defined on
  the character lists of the strings.
* The external collaborators (HTTP transport, the lxml DOM, `unidecode`, the
  flat-file store) are modelled by a `World` record: `World.pages` maps a URL
  to the parse results of the fetched document (status code plus the node
  lists each xpath used by the source would select), `World.unidec` is the
  `unidecode.unidecode` collaborator, and the three `Option`-valued file
  fields give the initial contents of the three persisted CSV files.
* Effects (HTTP requests, file writes, raised exceptions) are made explicit
  by the `BuildM` monad: a function from the running effect log to a result
  (`Except Err`) together with the updated log.  A Python `raise` is
  `raise_`; an attribute access on `None` (an `AttributeError` in Python) is
  `getAttr`; a missing pandas column (a `KeyError`) is `lookupKey`.
* pandas DataFrames are modelled as lists of typed rows.  The integer row
  index of a DataFrame is observable in this module only through
  `reset_index`/`to_csv(index=False)`, so rows are carried unindexed and the
  final `reset_index(drop=True)` of the builder is modelled by `List.enum`,
  which attaches the dense 0-based index.  `df.where(pd.notnull(df), None)`
  is the identity here because the optional cells are already `Option`s.
  `df.sort_values` is modelled by an insertion sort on the `country` column
  (the claims depend only on sortedness and on the resulting multiset).
-/

namespace Investpy

/-! ### Python string primitives -/

/-- Python `str.strip()`: drop whitespace from both ends. -/
def pyStrip (s : String) : String :=
  String.mk (((s.data.dropWhile Char.isWhitespace).reverse.dropWhile Char.isWhitespace).reverse)

/-- Python `str.lower()` (ASCII case folding suffices for this module). -/
def pyLower (s : String) : String :=
  String.mk (s.data.map Char.toLower)

/-- Python `str.replace` on character lists: replace every non-overlapping
occurrence of `pat`, scanning left to right.  The `fuel` argument only makes
the recursion structural (each step shortens the list by at least one, so
`fuel = length + 1` is never exhausted); it does not change the result. -/
def replaceAux (pat rep : List Char) : Nat → List Char → List Char
  | 0, l => l
  | _ + 1, [] => []
  | fuel + 1, c :: rest =>
    if pat ≠ [] ∧ pat.isPrefixOf (c :: rest) then
      rep ++ replaceAux pat rep fuel ((c :: rest).drop pat.length)
    else
      c :: replaceAux pat rep fuel rest

/-- Python `s.replace(pat, rep)`. -/
def pyReplace (s pat rep : String) : String :=
  String.mk (replaceAux pat.data rep.data (s.data.length + 1) s.data)

/-- Substring test on character lists (Python `pat in s`). -/
def containsSubAux (pat : List Char) : List Char → Bool
  | [] => pat.isPrefixOf []
  | c :: rest => pat.isPrefixOf (c :: rest) || containsSubAux pat rest

/-- Python `pat in s` / `str.__contains__`. -/
def strContains (s pat : String) : Bool :=
  containsSubAux pat.data s.data

/-! ### Text utilities: the symbol-extraction pattern

The source compiles `re.compile(r"\([a-zA-Z0-9\.\-\_\=]*?\)$")` and runs
`pattern.search` on the stripped heading text.  Because the character class
excludes both parentheses, `search` succeeds exactly when the stripped string
ends in `')'` and some `'('` is followed only by class characters up to that
final `')'`; the leftmost such `'('` starts the match. -/

/-- Characters admitted by the regex class `[a-zA-Z0-9\.\-\_\=]`. -/
def symbolCharOk (c : Char) : Bool :=
  decide (('a' ≤ c ∧ c ≤ 'z') ∨ ('A' ≤ c ∧ c ≤ 'Z') ∨ ('0' ≤ c ∧ c ≤ '9') ∨
    c = '.' ∨ c = '-' ∨ c = '_' ∨ c = '=')

/-- Find the leftmost `'('` whose suffix consists only of class characters;
return that suffix (the token inside the parentheses). -/
def findParen : List Char → Option (List Char)
  | [] => none
  | c :: rest =>
    if c = '(' ∧ rest.all symbolCharOk then some rest else findParen rest

/-- `extractSymbol(titleText)`: the symbol-extraction step of
`retrieve_index_info` — strip, regex-search, and remove the parentheses of
the match. -/
def extractSymbol (titleText : String) : Option String :=
  let val := pyStrip titleText
  if val.data.getLast? = some ')' then
    (findParen val.data.dropLast).map (fun t => String.mk t)
  else
    none

/-! ### Data model -/

/-- One row of the persisted catalog (`indices.csv`). -/
structure IndexRecord where
  country : String
  name : String
  full_name : String
  tag : String
  id : String
  symbol : Option String
  currency : Option String
  class_ : String
  market : String
deriving DecidableEq, Repr

/-- A catalog row after `drop(columns=['tag', 'id'])`. -/
structure QueryRecord where
  country : String
  name : String
  full_name : String
  symbol : Option String
  currency : Option String
  class_ : String
  market : String
deriving DecidableEq, Repr

/-- `indices.drop(columns=['tag', 'id'])`, row-wise. -/
def dropTagId (r : IndexRecord) : QueryRecord :=
  { country := r.country, name := r.name, full_name := r.full_name,
    symbol := r.symbol, currency := r.currency, class_ := r.class_,
    market := r.market }

/-- One row of `index_countries.csv` (columns `country,country_name`). -/
structure CountryRow where
  country : String
  country_name : String
deriving DecidableEq, Repr

/-- One row of `global_indices_countries.csv` (columns `id,country`). -/
structure GlobalCountryRow where
  id : String
  country : String
deriving DecidableEq, Repr

/-- The result of `retrieve_index_info`. -/
structure IndexInfo where
  currency : Option String
  symbol : Option String
deriving DecidableEq, Repr

/-! ### The external world: HTTP + DOM collaborators -/

/-- An `<a>` element inside a listing-table row.  `href`/`title` model
`element_.get(...)` (absent attribute = `none`); `text` models
`element_.text` (`none` when the element has no text node — accessing
`.strip()` on it raises in Python). -/
structure Anchor where
  href : Option String
  title : Option String
  text : Option String
deriving DecidableEq, Repr

/-- A `<tr>` of a listing table: its `id` attribute, the titles of the
`td[@class='flag']/span` elements (`none` = span without a `title`
attribute), and its `<a>` descendants. -/
structure TableRow where
  id_attr : Option String
  flags : List (Option String)
  anchors : List Anchor
deriving DecidableEq, Repr

/-- An `<option>` of the country `<select>`: its `value` attribute and its
text content. -/
structure OptionNode where
  value : Option String
  text : String
deriving DecidableEq, Repr

/-- The parse of one fetched document: the HTTP status plus the node lists
selected by each xpath expression the source uses against such a document. -/
structure Page where
  status : Nat
  /-- nodes of `.//table[@id='cr1']/tbody/tr` (per-country listing pages) -/
  cr_rows : List TableRow
  /-- nodes of `.//table[@id='cr_12']/tbody/tr` (global listing pages) -/
  cr12_rows : List TableRow
  /-- text contents of `.//div[@class='instrumentHead']/h1` (detail pages) -/
  h1s : List String
  /-- text contents of `.//div[contains(@class, 'bottom')]/span[@class='bold']` -/
  bolds : List String
  /-- nodes of `//select[@name='country']/option` (listing front pages) -/
  optionNodes : List OptionNode
deriving DecidableEq, Repr

/-- The environment a run executes against: the initial contents of the three
persisted CSV files (`none` = file absent), the web (URL to fetched page),
and the `unidecode.unidecode` collaborator. -/
structure World where
  index_countries_file : Option (List CountryRow)
  global_indices_countries_file : Option (List GlobalCountryRow)
  indices_file : Option (List IndexRecord)
  pages : String → Page
  unidec : String → String

/-! ### Effects: exceptions, requests and file writes -/

/-- The exceptions the module can raise. -/
inductive Err where
  | valueError (msg : String)
  | ioError (msg : String)
  | fileNotFoundError (msg : String)
  | runtimeError (msg : String)
  | connError (status : Nat)
  | keyError (key : String)
  | attrError
deriving DecidableEq, Repr

/-- A write of one of the three persisted CSV files (always a full
overwrite). -/
inductive FileWrite where
  | indexCountries (rows : List CountryRow)
  | globalIndexCountries (rows : List GlobalCountryRow)
  | indices (rows : List IndexRecord)
deriving DecidableEq, Repr

/-- Whether a write targets the catalog file `indices.csv`. -/
def isCatalogWrite : FileWrite → Bool
  | .indices _ => true
  | _ => false

/-- The effect log of a run: completed file writes and issued HTTP requests
(URL and response status), each in chronological order. -/
structure BuildLog where
  writes : List FileWrite
  requests : List (String × Nat)
deriving DecidableEq, Repr

/-- The empty log a top-level call starts from. -/
def initLog : BuildLog := { writes := [], requests := [] }

/-- The effect monad: state-passing over the effect log with exceptions that
preserve the log accumulated so far. -/
def BuildM (α : Type) : Type := BuildLog → Except Err α × BuildLog

instance : Monad BuildM where
  pure a := fun log => (Except.ok a, log)
  bind x f := fun log =>
    match x log with
    | (Except.ok a, log') => f a log'
    | (Except.error e, log') => (Except.error e, log')

/-- Python `raise`. -/
def raise_ (e : Err) : BuildM α := fun log => (Except.error e, log)

/-- `requests.get(url, headers=head)`: look the URL up in the world and log
the request.  (The rotating User-Agent and the fixed headers do not influence
the modelled response.) -/
def fetchPage (w : World) (url : String) : BuildM Page := fun log =>
  (Except.ok (w.pages url),
   { log with requests := log.requests ++ [(url, (w.pages url).status)] })

/-- `df.to_csv(file_, index=False)` for one of the resource files. -/
def tellWrite (fw : FileWrite) : BuildM Unit := fun log =>
  (Except.ok (), { log with writes := log.writes ++ [fw] })

/-- Lift a pure `Except` computation (no log change). -/
def liftE (x : Except Err α) : BuildM α := fun log => (x, log)

/-- A Python attribute access on the result of `element.get(...)`: `none`
(Python `None`) raises `AttributeError`. -/
def getAttr (v : Option String) : BuildM String :=
  match v with
  | none => raise_ .attrError
  | some s => pure s

/-- A pandas row access `row[key]` on a row modelled as an association list:
a missing column raises `KeyError`. -/
def lookupKey (row : List (String × String)) (key : String) : BuildM String :=
  match row.lookup key with
  | none => raise_ (.keyError key)
  | some v => pure v

/-- The fetch idiom repeated at every call site of the source:
`req = requests.get(url, headers=head)` followed by
`if req.status_code != 200: raise ConnectionError(...)`. -/
def getCheck (w : World) (url : String) : BuildM Page := do
  let req ← fetchPage w url
  if req.status ≠ 200 then
    raise_ (.connError req.status)
  else
    pure req

/-- Monadic concatenating traversal: Python appends to one shared `results`
list while looping; the translation returns each loop body's records and
concatenates them in loop order. -/
def gatherM (f : α → BuildM (List β)) : List α → BuildM (List β)
  | [] => pure []
  | x :: rest => do
    let ys ← f x
    let zs ← gatherM f rest
    pure (ys ++ zs)

/-! ### File state

Reads of the persisted CSV files see the most recent write in the effect log,
falling back to the world's initial file contents (`pkg_resources` checks and
`pd.read_csv` are modelled together by these `Option`-valued lookups). -/

/-- The rows of the last catalog overwrite in a write list, if any. -/
def lastCatalogWrite : List FileWrite → Option (List IndexRecord)
  | [] => none
  | fw :: rest =>
    match lastCatalogWrite rest with
    | some t => some t
    | none => match fw with
              | .indices t => some t
              | _ => none

/-- The rows of the last `index_countries.csv` overwrite, if any. -/
def lastIndexCountriesWrite : List FileWrite → Option (List CountryRow)
  | [] => none
  | fw :: rest =>
    match lastIndexCountriesWrite rest with
    | some t => some t
    | none => match fw with
              | .indexCountries t => some t
              | _ => none

/-- The rows of the last `global_indices_countries.csv` overwrite, if any. -/
def lastGlobalCountriesWrite : List FileWrite → Option (List GlobalCountryRow)
  | [] => none
  | fw :: rest =>
    match lastGlobalCountriesWrite rest with
    | some t => some t
    | none => match fw with
              | .globalIndexCountries t => some t
              | _ => none

/-- Current contents of `indices.csv` (`none` = absent). -/
def catalogState (w : World) (log : BuildLog) : Option (List IndexRecord) :=
  match lastCatalogWrite log.writes with
  | some t => some t
  | none => w.indices_file

/-- Current contents of `index_countries.csv` (`none` = absent). -/
def indexCountriesState (w : World) (log : BuildLog) : Option (List CountryRow) :=
  match lastIndexCountriesWrite log.writes with
  | some t => some t
  | none => w.index_countries_file

/-- Current contents of `global_indices_countries.csv` (`none` = absent). -/
def globalCountriesState (w : World) (log : BuildLog) : Option (List GlobalCountryRow) :=
  match lastGlobalCountriesWrite log.writes with
  | some t => some t
  | none => w.global_indices_countries_file

/-! ### Detail Fetcher: `retrieve_index_info` -/

/-- Fold of the `h1` loop of `retrieve_index_info`: for every heading with
non-empty text content, run the symbol pattern on its stripped text; a match
overwrites the previously found symbol, a failed search leaves it. -/
def infoSymbol (h1s : List String) : Option String :=
  h1s.foldl
    (fun acc txt =>
      if txt = "" then acc
      else
        match extractSymbol txt with
        | some s => some s
        | none => acc)
    none

/-- Fold of the bold-span loop of `retrieve_index_info`: the last span with
non-empty text content provides the currency. -/
def infoCurrency (bolds : List String) : Option String :=
  bolds.foldl (fun acc txt => if txt = "" then acc else some txt) none

/-- `retrieve_index_info(tag)`: fetch the index detail page and extract the
optional `symbol` and `currency` fields. -/
def retrieve_index_info (tag : String) (w : World) : BuildM IndexInfo := do
  let url := "https://www.investing.com/indices/" ++ tag
  let req ← getCheck w url
  pure { currency := infoCurrency req.bolds, symbol := infoSymbol req.h1s }

/-! ### Country Listers -/

/-- `retrieve_index_countries(test_mode)`: scrape the country options of
`https://www.investing.com/indices/` into `CountryRow`s, fail when none were
found, persist (unless `test_mode`) and return them. -/
def retrieve_index_countries (test_mode : Bool) (w : World) : BuildM (List CountryRow) := do
  -- `isinstance(test_mode, bool)` holds by typing.
  let req ← getCheck w "https://www.investing.com/indices/"
  do
    let countries ←
      gatherM
        (fun element => do
          if element.value ≠ some "/indices/world-indices" then do
            -- `element.get('value').replace(...)` raises on a missing value.
            let v ← getAttr element.value
            pure [{ country :=
                      pyStrip (pyReplace (pyReplace (pyReplace v "/indices/" "") "-indices" "") "-" " "),
                    country_name := w.unidec (pyLower (pyStrip element.text)) : CountryRow }]
          else
            pure [])
        req.optionNodes
    if countries.length ≤ 0 then
      raise_ (.runtimeError "ERR#0035: no countries could be retrieved!")
    else do
      if test_mode = false then
        tellWrite (.indexCountries countries)
      else
        pure ()
      pure countries

/-- Option loop of `retrieve_global_indices_countries`, carried explicitly
because in test mode the loop breaks after the first appended entry. -/
def globalCountriesLoop (w : World) (test_mode : Bool) : List OptionNode → BuildM (List GlobalCountryRow)
  | [] => pure []
  | element :: rest => do
    if element.value ≠ some "/indices/global-indices" then do
      let v ← getAttr element.value
      let row : GlobalCountryRow :=
        { id := pyReplace v "/indices/global-indices?c_id=" "",
          country := w.unidec (pyLower (pyStrip element.text)) }
      if test_mode then
        pure [row]
      else do
        let rows ← globalCountriesLoop w test_mode rest
        pure (row :: rows)
    else
      globalCountriesLoop w test_mode rest

/-- `retrieve_global_indices_countries(test_mode)`: scrape the country
options of the global-indices listing into `GlobalCountryRow`s. -/
def retrieve_global_indices_countries (test_mode : Bool) (w : World) : BuildM (List GlobalCountryRow) := do
  let req ← getCheck w "https://www.investing.com/indices/global-indices"
  do
    let countries ← globalCountriesLoop w test_mode req.optionNodes
    if countries.length ≤ 0 then
      raise_ (.runtimeError "ERR#0035: no countries could be retrieved!")
    else do
      if test_mode = false then
        tellWrite (.globalIndexCountries countries)
      else
        pure ()
      pure countries

/-! ### Catalog Builder: `retrieve_indices`

The three passes share one row/anchor extraction block, repeated verbatim in
the source; it is translated once below.  The `getCountry` action supplies
the `'country'` value of the record being built: a pure value in Pass 1 and
Pass 3, a pandas row lookup (which can raise `KeyError`) in Pass 2 — the
source evaluates it inside the `data` dict literal, after the detail fetch,
which the translation preserves. -/

/-- A `class`/query-string filter pair of an `indices_filters` list. -/
structure IndicesFilter where
  class_ : String
  filter : String
deriving DecidableEq, Repr

/-- The four filters of Pass 1. -/
def pass1Filters : List IndicesFilter :=
  [{ class_ := "major_indices", filter := "majorIndices=on" },
   { class_ := "primary_sectors", filter := "primarySectors=on" },
   { class_ := "additional_indices", filter := "additionalIndices=on" },
   { class_ := "other_indices", filter := "otherIndices=on" }]

/-- The five filters of Pass 2 (Pass 1's plus `bonds`). -/
def pass2Filters : List IndicesFilter :=
  [{ class_ := "major_indices", filter := "majorIndices=on" },
   { class_ := "primary_sectors", filter := "primarySectors=on" },
   { class_ := "bonds", filter := "bonds=on" },
   { class_ := "additional_indices", filter := "additionalIndices=on" },
   { class_ := "other_indices", filter := "otherIndices=on" }]

/-- The six filters of Pass 3 (Pass 2's plus `commodities`). -/
def pass3Filters : List IndicesFilter :=
  pass2Filters ++ [{ class_ := "commodities", filter := "commodities=on" }]

/-- The `for element_ in elements_.xpath('.//a')` body: anchors whose `href`
contains `/indices/` yield one record each (`str(None)` does not contain
`/indices/`, so an absent `href` is skipped silently). -/
def processAnchor (w : World) (getCountry : BuildM String) (id_ class_ market : String)
    (a : Anchor) : BuildM (List IndexRecord) :=
  match a.href with
  | none => pure []
  | some href =>
    if strContains href "/indices/" then do
      let tag_ := pyReplace href "/indices/" ""
      let title ← getAttr a.title
      let full_name_ := pyStrip (pyReplace title " (CFD)" "")
      let text ← getAttr a.text
      let name := pyStrip text
      let info ← retrieve_index_info tag_ w
      let country ← getCountry
      pure [{ country := country, name := name, full_name := full_name_,
              tag := tag_, id := id_, symbol := info.symbol,
              currency := info.currency, class_ := class_, market := market }]
    else
      pure []

/-- The `for elements_ in path_` body shared by Pass 1 and Pass 2: read the
row's `id` attribute (raising on its absence, as `None.replace` would) and
process every anchor. -/
def processRow (w : World) (getCountry : BuildM String) (class_ market : String)
    (row : TableRow) : BuildM (List IndexRecord) := do
  let idAttr ← getAttr row.id_attr
  let id_ := pyReplace idAttr "pair_" ""
  gatherM (processAnchor w getCountry id_ class_ market) row.anchors

/-- Pass 1, one country and one filter: fetch the category-filtered listing
page of the country and extract its rows.  The record's `country` is the
loop country with the `uk`/`usa` renames of the source's `data` literal. -/
def pass1Fetch (w : World) (country : String) (f : IndicesFilter) : BuildM (List IndexRecord) := do
  let url := "https://www.investing.com/indices/" ++ pyReplace country " " "-"
               ++ "-indices?&" ++ f.filter
  let req ← getCheck w url
  let recCountry : String :=
    if country = "uk" then "united kingdom"
    else if country = "usa" then "united states"
    else country
  gatherM (processRow w (pure recCountry) f.class_ "world_indices") req.cr_rows

/-- Pass 1, all four filters of one country. -/
def pass1Country (w : World) (country : String) : BuildM (List IndexRecord) :=
  gatherM (pass1Fetch w country) pass1Filters

/-- Pass 1 over the country list; in test mode the loop breaks after the
first country. -/
def pass1Loop (w : World) (test_mode : Bool) : List String → BuildM (List IndexRecord)
  | [] => pure []
  | c :: rest => do
    let rs ← pass1Country w c
    if test_mode then
      pure rs
    else do
      let rest' ← pass1Loop w test_mode rest
      pure (rs ++ rest')

/-- Pass 2 row loop (`for elements_ in path_`); in test mode it breaks after
the first row. -/
def pass2RowsLoop (w : World) (test_mode : Bool) (countryRow : List (String × String))
    (class_ : String) : List TableRow → BuildM (List IndexRecord)
  | [] => pure []
  | r :: rest => do
    let rs ← processRow w (lookupKey countryRow "country") class_ "global_indices" r
    if test_mode then
      pure rs
    else do
      let rest' ← pass2RowsLoop w test_mode countryRow class_ rest
      pure (rs ++ rest')

/-- Pass 2, one country row and one filter: the URL embeds `str(row['id'])`
(raising `KeyError` when the row has no `id` column — which is the case for
the rows produced by the fallback lister). -/
def pass2Fetch (w : World) (test_mode : Bool) (countryRow : List (String × String))
    (f : IndicesFilter) : BuildM (List IndexRecord) := do
  let idVal ← lookupKey countryRow "id"
  let url := "https://www.investing.com/indices/global-indices?" ++ f.filter
               ++ "&c_id=" ++ idVal
  let req ← getCheck w url
  pass2RowsLoop w test_mode countryRow f.class_ req.cr12_rows

/-- Pass 2 over the country rows (`countries.iterrows()`); in test mode the
loop breaks after the first row. -/
def pass2Loop (w : World) (test_mode : Bool) : List (List (String × String)) → BuildM (List IndexRecord)
  | [] => pure []
  | row :: rest => do
    let rs ← gatherM (pass2Fetch w test_mode row) pass2Filters
    if test_mode then
      pure rs
    else do
      let rest' ← pass2Loop w test_mode rest
      pure (rs ++ rest')

/-- The region resolution of Pass 3 (lines computing `region` from the flag
spans): the last span's `title` wins; `''` maps to `world`, the literal
`Euro Zone` to its lowercase form, anything else through
`unidecode(region.strip().lower())` — which raises `AttributeError` when
`region` is `None` (no span, or a span without `title`). -/
def resolveRegion (w : World) (flags : List (Option String)) : Except Err String :=
  let region : Option String := flags.foldl (fun _ t => t) none
  if region = some "" then
    Except.ok "world"
  else if region = some "Euro Zone" then
    Except.ok (pyLower "Euro Zone")
  else
    match region with
    | some s => Except.ok (w.unidec (pyLower (pyStrip s)))
    | none => Except.error .attrError

/-- Pass 3, one row: resolve the region, then extract the anchors with the
region as the record's `country`. -/
def pass3Row (w : World) (class_ : String) (row : TableRow) : BuildM (List IndexRecord) := do
  let idAttr ← getAttr row.id_attr
  let id_ := pyReplace idAttr "pair_" ""
  let region ← liftE (resolveRegion w row.flags)
  gatherM (processAnchor w (pure region) id_ class_ "global_indices") row.anchors

/-- Pass 3 over its six filters: fetch the unfiltered global listing; in test
mode the filter loop breaks after the first filter whose table has rows (the
`break` sits inside `if path_:`). -/
def pass3Loop (w : World) (test_mode : Bool) : List IndicesFilter → BuildM (List IndexRecord)
  | [] => pure []
  | f :: rest => do
    let url := "https://www.investing.com/indices/global-indices?" ++ f.filter ++ "&r_id="
    let req ← getCheck w url
    do
      let rs ← gatherM (pass3Row w f.class_) req.cr12_rows
      if test_mode ∧ req.cr12_rows ≠ [] then
        pure rs
      else do
        let rest' ← pass3Loop w test_mode rest
        pure (rs ++ rest')

/-! ### Builder prerequisites and finalization -/

/-- Lines 59–64: load `index_countries.csv`; a missing file raises `IOError`
immediately (no lister is invoked on this path). -/
def loadIndexCountries (w : World) : BuildM (List CountryRow) := fun log =>
  match indexCountriesState w log with
  | some rows => (Except.ok rows, log)
  | none =>
    (Except.error (.ioError "ERR#0036: equity countries list not found or unable to retrieve."),
     log)

/-- A pandas country row as the association list `iterrows` exposes. -/
def rowsOfGlobal (l : List GlobalCountryRow) : List (List (String × String)) :=
  l.map (fun r => [("id", r.id), ("country", r.country)])

/-- The fallback lister's rows, which have no `id` column. -/
def rowsOfCountry (l : List CountryRow) : List (List (String × String)) :=
  l.map (fun r => [("country", r.country), ("country_name", r.country_name)])

/-- Lines 136–144: load `global_indices_countries.csv`; when the file is
absent the source falls back to `retrieve_index_countries(test_mode=False)`
(the single-country lister), whose rows lack the `id` column.  The
`countries is None` guard is kept although neither branch produces `None`. -/
def readGlobalCountries (w : World) : BuildM (Option (List (List (String × String)))) :=
  fun log =>
    match globalCountriesState w log with
    | some rows => (Except.ok (some (rowsOfGlobal rows)), log)
    | none =>
      match retrieve_index_countries false w log with
      | (Except.ok cs, log') => (Except.ok (some (rowsOfCountry cs)), log')
      | (Except.error e, log') => (Except.error e, log')

/-- Lines 136–144 continued: bind the read with the dead `None` check. -/
def loadGlobalCountries (w : World) : BuildM (List (List (String × String))) := do
  let countries ← readGlobalCountries w
  match countries with
  | none =>
    raise_ (.ioError "ERR#0036: equity countries list not found or unable to retrieve.")
  | some cs => pure cs

/-- The raw scan: the three passes in order, appending to one result list. -/
def gatherResults (w : World) (test_mode : Bool) : BuildM (List IndexRecord) := do
  let countries ← loadIndexCountries w
  let r1 ← pass1Loop w test_mode (countries.map (fun c => c.country))
  let globalRows ← loadGlobalCountries w
  let r2 ← pass2Loop w test_mode globalRows
  let r3 ← pass3Loop w test_mode pass3Filters
  pure (r1 ++ r2 ++ r3)

/-- `df.drop_duplicates(subset="tag", keep='first')`: keep each row whose
`tag` has not been seen earlier in the scan. -/
def dropDupTag : List IndexRecord → List String → List IndexRecord
  | [], _ => []
  | r :: rest, seen =>
    if r.tag ∈ seen then dropDupTag rest seen
    else r :: dropDupTag rest (r.tag :: seen)

/-- Insertion step of the `country` sort. -/
def insertByCountry (r : IndexRecord) : List IndexRecord → List IndexRecord
  | [] => [r]
  | x :: rest =>
    if r.country ≤ x.country then r :: x :: rest
    else x :: insertByCountry r rest

/-- `df.sort_values('country', ascending=True)`, modelled as insertion sort
(pandas does not promise a stable order among equal keys; the claims depend
only on sortedness and on the row multiset). -/
def sortByCountry : List IndexRecord → List IndexRecord
  | [] => []
  | r :: rest => insertByCountry r (sortByCountry rest)

/-- Lines 319–324: `pd.DataFrame(results)`, the no-op `df.where(pd.notnull(df), None)`
(optional cells are already `Option`s), dedup by `tag` keeping the first
occurrence, ascending sort by `country`, and `reset_index(drop=True)`
attaching the dense 0-based row index. -/
def finalizeIndices (results : List IndexRecord) : List (Nat × IndexRecord) :=
  List.enum (sortByCountry (dropDupTag results []))

/-- `retrieve_indices(test_mode)`: run the three passes, finalize the table,
persist it (unless in test mode) and return it. -/
def retrieve_indices (test_mode : Bool) (w : World) : BuildM (List (Nat × IndexRecord)) := do
  -- `isinstance(test_mode, bool)` holds by typing.
  let results ← gatherResults w test_mode
  let df := finalizeIndices results
  if test_mode = false then
    tellWrite (.indices (df.map Prod.snd))  -- `to_csv(index=False)` drops the index
  else
    pure ()
  pure df

/-! ### Catalog Query Layer -/

/-- `Series.unique()`: distinct values in order of first appearance. -/
def uniqueAux : List String → List String → List String
  | [], _ => []
  | x :: rest, seen =>
    if x ∈ seen then uniqueAux rest seen
    else x :: uniqueAux rest (x :: seen)

/-- `indices['country'].unique().tolist()`. -/
def uniqueFirst (l : List String) : List String := uniqueAux l []

/-- `index_countries_as_list()`: the distinct `country` values of the
persisted catalog.  The `indices is None` guard of the source is kept
although `read_csv` never yields `None`. -/
def index_countries_as_list (w : World) : BuildM (List String) := fun log =>
  match catalogState w log with
  | none => (Except.error (.fileNotFoundError "ERR#0059: indices file not found or errored."), log)
  | some table =>
    let indices : Option (List IndexRecord) := some table
    match indices with
    | none => (Except.error (.ioError "ERR#0037: indices not found or unable to retrieve."), log)
    | some indices => (Except.ok (uniqueFirst (indices.map (fun r => r.country))), log)

/-- The load idiom shared by the three query functions (lines 601–609 etc.):
read `indices.csv` if it exists, otherwise rebuild it via
`retrieve_indices()`; then the (unreachable) `indices is None` check. -/
def readOrBuild (w : World) : BuildM (Option (List IndexRecord)) := fun log =>
  match catalogState w log with
  | some t => (Except.ok (some t), log)
  | none =>
    match retrieve_indices false w log with
    | (Except.ok df, log') => (Except.ok (some (df.map Prod.snd)), log')
    | (Except.error e, log') => (Except.error e, log')

/-- Loaded catalog rows, after the dead `None` check. -/
def loadIndices (w : World) : BuildM (List IndexRecord) := do
  let indices ← readOrBuild w
  match indices with
  | none => raise_ (.ioError "ERR#0037: indices not found or unable to retrieve.")
  | some t => pure t

/-- `indices_as_df(country)`: drop `tag`/`id`, optionally filter by the
normalized country.  A country absent from `index_countries_as_list()` makes
the function fall off its `if`/`elif` and return Python `None`, modelled as
`Option.none` (the `reset_index` calls only re-densify the decorative row
index). -/
def indices_as_df (country : Option String) (w : World) : BuildM (Option (List QueryRecord)) := do
  -- `isinstance(country, str)` holds by typing.
  let indices0 ← loadIndices w
  let indices := indices0.map dropTagId
  match country with
  | none => pure (some indices)
  | some c => do
    let cl ← index_countries_as_list w
    if w.unidec (pyLower c) ∈ cl then
      pure (some (indices.filter (fun r => r.country = w.unidec (pyLower c))))
    else
      pure none

/-- `indices_as_list(country)`: as `indices_as_df` but returning the `name`
column. -/
def indices_as_list (country : Option String) (w : World) : BuildM (Option (List String)) := do
  let indices0 ← loadIndices w
  let indices := indices0.map dropTagId
  match country with
  | none => pure (some (indices.map (fun r => r.name)))
  | some c => do
    let cl ← index_countries_as_list w
    if w.unidec (pyLower c) ∈ cl then
      pure (some ((indices.filter (fun r => r.country = w.unidec (pyLower c))).map (fun r => r.name)))
    else
      pure none

/-- The columns remaining after `drop(columns=['tag', 'id'])`, in CSV order:
this is `indices.columns.tolist()` inside the query functions. -/
def queryColumns : List String :=
  ["country", "name", "full_name", "symbol", "currency", "class", "market"]

/-- The cell of one remaining column (`None`-able for `symbol`/`currency`). -/
def cellOf (r : QueryRecord) (c : String) : Option String :=
  if c = "country" then some r.country
  else if c = "name" then some r.name
  else if c = "full_name" then some r.full_name
  else if c = "symbol" then r.symbol
  else if c = "currency" then r.currency
  else if c = "class" then some r.class_
  else if c = "market" then some r.market
  else none

/-- One record of `indices[columns].to_dict(orient='records')`. -/
def projectRecord (columns : List String) (r : QueryRecord) : List (String × Option String) :=
  columns.map (fun c => (c, cellOf r c))

/-- The result of `indices_as_dict`: a list of records, or the same data
behind `json.dumps` (serialization is outside the model, so the JSON branch
is a tagged wrapper around the same records). -/
inductive DictOut where
  | records (rs : List (List (String × Option String)))
  | jsonDoc (rs : List (List (String × Option String)))
deriving DecidableEq, Repr

/-- `indices_as_dict(country, columns, as_json)`: same loading, column
validation against the remaining columns, then the same country branching as
`indices_as_df` — except that the membership check uses the *raw* `country`
argument while the row filter uses the normalized one. -/
def indices_as_dict (country : Option String) (columns : Option (List String))
    (as_json : Bool) (w : World) : BuildM (Option DictOut) := do
  -- `isinstance` checks on `country`, `as_json`, `columns` hold by typing.
  let indices0 ← loadIndices w
  let indices := indices0.map dropTagId
  let columns := match columns with
                 | none => queryColumns
                 | some cs => cs
  if ¬ (columns.all (fun c => c ∈ queryColumns)) then
    raise_ (.valueError
      "ERR#0023: specified columns does not exist, available columns are <country, name, full_name, symbol, currency, class, market>")
  else
    match country with
    | none =>
      if as_json then
        pure (some (.jsonDoc (indices.map (projectRecord columns))))
      else
        pure (some (.records (indices.map (projectRecord columns))))
    | some c => do
      let cl ← index_countries_as_list w
      if c ∈ cl then
        let sel := indices.filter (fun r => r.country = w.unidec (pyLower c))
        if as_json then
          pure (some (.jsonDoc (sel.map (projectRecord columns))))
        else
          pure (some (.records (sel.map (projectRecord columns))))
      else
        pure none

/-! ### Concrete worlds used by witnesses and counterexamples -/

/-- A parsed page with status 200 and no nodes of interest. -/
def emptyPage : Page :=
  { status := 200, cr_rows := [], cr12_rows := [], h1s := [], bolds := [],
    optionNodes := [] }

/-- Both country files present but empty, catalog absent, every page empty
with status 200: the smallest world on which a full build succeeds. -/
def trivWorld : World :=
  { index_countries_file := some [], global_indices_countries_file := some [],
    indices_file := none, pages := fun _ => emptyPage, unidec := fun s => s }

/-- `index_countries.csv` absent, while the lister page would yield a
country: exercises the missing-prerequisite path of `retrieve_indices`. -/
def noCountriesFileWorld : World :=
  { index_countries_file := none, global_indices_countries_file := some [],
    indices_file := none,
    pages := fun _ =>
      { emptyPage with
          optionNodes := [{ value := some "/indices/spain-indices", text := "Spain" }] },
    unidec := fun s => s }

/-- A successful build until Pass 3 meets a row with no flag span. -/
def noFlagWorld : World :=
  { index_countries_file := some [], global_indices_countries_file := some [],
    indices_file := none,
    pages := fun url =>
      if url = "https://www.investing.com/indices/global-indices?majorIndices=on&r_id=" then
        { emptyPage with
            cr12_rows := [{ id_attr := some "pair_1", flags := [], anchors := [] }] }
      else emptyPage,
    unidec := fun s => s }

/-- Catalog file present but holding zero rows. -/
def emptyCatalogWorld : World :=
  { index_countries_file := none, global_indices_countries_file := none,
    indices_file := some [], pages := fun _ => emptyPage, unidec := fun s => s }

/-- A one-row catalog whose row is the German index. -/
def germanRecord : IndexRecord :=
  { country := "germany", name := "DAX", full_name := "DAX", tag := "germany-30",
    id := "172", symbol := some "GDAXI", currency := some "EUR",
    class_ := "major_indices", market := "world_indices" }

/-- Catalog file present with exactly `germanRecord`. -/
def germanyWorld : World :=
  { index_countries_file := none, global_indices_countries_file := none,
    indices_file := some [germanRecord], pages := fun _ => emptyPage,
    unidec := fun s => s }

/-- A world whose full crawl succeeds with one real record: Pass 1 visits
Germany's major-indices listing, finds one anchor, and the detail page
supplies symbol and currency; the catalog file starts absent.  The build
returns `[(0, germanRecord)]` and persists `[germanRecord]`. -/
def crawlWorld : World :=
  { index_countries_file := some [{ country := "germany", country_name := "germany" }],
    global_indices_countries_file := some [],
    indices_file := none,
    pages := fun url =>
      if url = "https://www.investing.com/indices/germany-indices?&majorIndices=on" then
        { emptyPage with
            cr_rows := [{ id_attr := some "pair_172", flags := [],
                          anchors := [{ href := some "/indices/germany-30",
                                        title := some "DAX (CFD)",
                                        text := some " DAX " }] }] }
      else if url = "https://www.investing.com/indices/germany-30" then
        { emptyPage with h1s := ["DAX (GDAXI)"], bolds := ["EUR"] }
      else emptyPage,
    unidec := fun s => s }

/-! ## Theorems

### The symbol-extraction pattern (C9) -/

theorem symbolCharOk_lparen : symbolCharOk '(' = false := by decide

/-- Decomposition of a non-empty list along its last element. -/
theorem getLast?_decomp {α : Type} {l : List α} {a : α} (h : l.getLast? = some a) :
    l = l.dropLast ++ [a] := by
  induction l with
  | nil => simp at h
  | cons x xs ih =>
    cases xs with
    | nil =>
      simp only [List.getLast?_singleton, Option.some.injEq] at h
      simp [h]
    | cons y ys =>
      rw [List.getLast?_cons_cons] at h
      have hxs := ih h
      calc x :: y :: ys = x :: ((y :: ys).dropLast ++ [a]) := by rw [← hxs]
        _ = (x :: y :: ys).dropLast ++ [a] := by simp [List.dropLast]

/-- `findParen` finds exactly the decompositions along a `'('` whose whole
suffix lies in the regex character class. -/
theorem findParen_eq_some_iff (t : List Char) :
    ∀ l : List Char, findParen l = some t ↔
      ∃ p : List Char, l = p ++ '(' :: t ∧ t.all symbolCharOk = true := by
  intro l
  induction l with
  | nil => simp [findParen]
  | cons c rest ih =>
    by_cases h : c = '(' ∧ rest.all symbolCharOk
    · simp only [findParen, if_pos h]
      constructor
      · intro heq
        injection heq with heq
        exact ⟨[], by simp [h.1, heq], heq ▸ h.2⟩
      · rintro ⟨p, hp, hok⟩
        cases p with
        | nil =>
          simp only [List.nil_append, List.cons.injEq] at hp
          rw [hp.2]
        | cons q p' =>
          exfalso
          simp only [List.cons_append, List.cons.injEq] at hp
          have hmem : '(' ∈ rest := by
            rw [hp.2]; exact List.mem_append_right _ (List.mem_cons_self _ _)
          have := List.all_eq_true.mp h.2 '(' hmem
          rw [symbolCharOk_lparen] at this
          exact Bool.false_ne_true this
    · simp only [findParen, if_neg h]
      rw [ih]
      constructor
      · rintro ⟨p, hp, hok⟩
        exact ⟨c :: p, by simp [hp], hok⟩
      · rintro ⟨p, hp, hok⟩
        cases p with
        | nil =>
          simp only [List.nil_append, List.cons.injEq] at hp
          exact absurd ⟨hp.1, hp.2 ▸ hok⟩ h
        | cons q p' =>
          simp only [List.cons_append, List.cons.injEq] at hp
          exact ⟨p', hp.2, hok⟩

/-- Characterization of the whole extraction step on the stripped title. -/
theorem extractSymbol_eq_some_iff (s t : String) :
    extractSymbol s = some t ↔
      ∃ p : List Char, (pyStrip s).data = p ++ '(' :: (t.data ++ [')']) ∧
        t.data.all symbolCharOk = true := by
  unfold extractSymbol
  by_cases hlast : (pyStrip s).data.getLast? = some ')'
  · rw [if_pos hlast]
    have hdecomp := getLast?_decomp hlast
    rw [Option.map_eq_some']
    constructor
    · rintro ⟨tl, hfp, hmk⟩
      have htl : tl = t.data := by
        cases t with
        | mk d => injection hmk
      subst htl
      obtain ⟨p, hp, hok⟩ := (findParen_eq_some_iff _ _).mp hfp
      refine ⟨p, ?_, hok⟩
      rw [hdecomp, hp]
      simp
    · rintro ⟨p, hp, hok⟩
      refine ⟨t.data, ?_, by cases t; rfl⟩
      apply (findParen_eq_some_iff _ _).mpr
      refine ⟨p, ?_, hok⟩
      have hre : (pyStrip s).data = (p ++ '(' :: t.data) ++ [')'] := by
        rw [hp]; simp
      rw [hre, List.dropLast_concat]
  · rw [if_neg hlast]
    constructor
    · intro h
      exact absurd h (by simp)
    · rintro ⟨p, hp, hok⟩
      exfalso
      apply hlast
      have hre : p ++ '(' :: (t.data ++ [')']) = (p ++ '(' :: t.data) ++ [')'] := by simp
      rw [hp, hre, List.getLast?_concat]

/-- C9: `extractSymbol` returns, for every title whose trimmed form ends in a
parenthesized token drawn from the class of letters, digits, `.`, `-`, `_`,
`=`, exactly that token without its parentheses, and `none` when no such
trailing token exists; in particular `"Example Index (IDX)" ↦ "IDX"` and
`"Example Index" ↦ none`. -/
theorem extractSymbol_correct :
    (∀ s t : String, extractSymbol s = some t ↔
      ∃ p : List Char, (pyStrip s).data = p ++ '(' :: (t.data ++ [')']) ∧
        t.data.all symbolCharOk = true) ∧
    extractSymbol "Example Index (IDX)" = some "IDX" ∧
    extractSymbol "Example Index" = none :=
  ⟨extractSymbol_eq_some_iff, rfl, rfl⟩

/-! ### Monad computation lemmas -/

theorem buildm_bind_apply (x : BuildM α) (f : α → BuildM β) (log : BuildLog) :
    (x >>= f) log =
      match x log with
      | (Except.ok a, log') => f a log'
      | (Except.error e, log') => (Except.error e, log') := rfl

theorem buildm_pure_apply (a : α) (log : BuildLog) :
    (pure a : BuildM α) log = (Except.ok a, log) := rfl

/-- What one `retrieve_indices` run is, in terms of the raw scan. -/
theorem retrieve_indices_run (tm : Bool) (w : World) (log : BuildLog) :
    retrieve_indices tm w log =
      match gatherResults w tm log with
      | (Except.ok results, l1) =>
        if tm = false then
          (Except.ok (finalizeIndices results),
           { l1 with
               writes := l1.writes ++ [FileWrite.indices ((finalizeIndices results).map Prod.snd)] })
        else
          (Except.ok (finalizeIndices results), l1)
      | (Except.error e, l1) => (Except.error e, l1) := by
  show (gatherResults w tm >>= _) log = _
  rw [buildm_bind_apply]
  rcases gatherResults w tm log with ⟨res, l1⟩
  cases res with
  | ok results => cases tm <;> rfl
  | error e => rfl

/-! ### Finalization lemmas (dedup, sort, dense index) -/

theorem mem_dropDupTag_find {r : IndexRecord} :
    ∀ (l : List IndexRecord) (seen : List String), r ∈ dropDupTag l seen →
      r.tag ∉ seen ∧ l.find? (fun x => x.tag == r.tag) = some r := by
  intro l
  induction l with
  | nil => intro seen h; simp [dropDupTag] at h
  | cons x rest ih =>
    intro seen h
    by_cases hx : x.tag ∈ seen
    · rw [dropDupTag, if_pos hx] at h
      obtain ⟨hnot, hfind⟩ := ih seen h
      refine ⟨hnot, ?_⟩
      have hne : (x.tag == r.tag) = false := by
        rw [beq_eq_false_iff_ne]
        intro hteq
        exact hnot (hteq ▸ hx)
      simpa [List.find?_cons, hne] using hfind
    · rw [dropDupTag, if_neg hx] at h
      rcases List.mem_cons.mp h with hrx | hmem
      · subst hrx
        exact ⟨hx, by simp [List.find?_cons]⟩
      · obtain ⟨hnot, hfind⟩ := ih (x.tag :: seen) hmem
        have hne : r.tag ≠ x.tag := fun hteq => hnot (hteq ▸ List.mem_cons_self _ _)
        refine ⟨fun hmem' => hnot (List.mem_cons_of_mem _ hmem'), ?_⟩
        have hne' : (x.tag == r.tag) = false := by
          rw [beq_eq_false_iff_ne]
          exact fun hteq => hne hteq.symm
        simpa [List.find?_cons, hne'] using hfind

theorem dropDupTag_tags_nodup :
    ∀ (l : List IndexRecord) (seen : List String),
      ((dropDupTag l seen).map (fun r => r.tag)).Nodup := by
  intro l
  induction l with
  | nil => intro seen; simp [dropDupTag]
  | cons x rest ih =>
    intro seen
    by_cases hx : x.tag ∈ seen
    · rw [dropDupTag, if_pos hx]
      exact ih seen
    · rw [dropDupTag, if_neg hx]
      rw [List.map_cons, List.nodup_cons]
      constructor
      · intro hmem
        obtain ⟨r', hr', htag⟩ := List.mem_map.mp hmem
        obtain ⟨hnot, _⟩ := mem_dropDupTag_find rest (x.tag :: seen) hr'
        exact hnot (htag ▸ List.mem_cons_self _ _)
      · exact ih (x.tag :: seen)

theorem dropDupTag_covers {r : IndexRecord} :
    ∀ (l : List IndexRecord) (seen : List String), r ∈ l →
      r.tag ∈ seen ∨ ∃ r' ∈ dropDupTag l seen, r'.tag = r.tag := by
  intro l
  induction l with
  | nil => intro seen h; simp at h
  | cons x rest ih =>
    intro seen h
    rcases List.mem_cons.mp h with hrx | hmem
    · subst hrx
      by_cases hx : r.tag ∈ seen
      · exact Or.inl hx
      · rw [dropDupTag, if_neg hx]
        exact Or.inr ⟨r, List.mem_cons_self _ _, rfl⟩
    · by_cases hx : x.tag ∈ seen
      · rw [dropDupTag, if_pos hx]
        exact ih seen hmem
      · rw [dropDupTag, if_neg hx]
        rcases ih (x.tag :: seen) hmem with hseen | ⟨r', hr', htag⟩
        · rcases List.mem_cons.mp hseen with heq | hseen'
          · exact Or.inr ⟨x, List.mem_cons_self _ _, heq.symm⟩
          · exact Or.inl hseen'
        · exact Or.inr ⟨r', List.mem_cons_of_mem _ hr', htag⟩

theorem insertByCountry_perm (r : IndexRecord) (l : List IndexRecord) :
    (insertByCountry r l).Perm (r :: l) := by
  induction l with
  | nil => exact List.Perm.refl _
  | cons x rest ih =>
    by_cases h : r.country ≤ x.country
    · rw [insertByCountry, if_pos h]
    · rw [insertByCountry, if_neg h]
      exact (ih.cons x).trans (List.Perm.swap r x rest)

theorem sortByCountry_perm (l : List IndexRecord) : (sortByCountry l).Perm l := by
  induction l with
  | nil => exact List.Perm.refl _
  | cons x rest ih =>
    rw [sortByCountry]
    exact (insertByCountry_perm x (sortByCountry rest)).trans (ih.cons x)

theorem insertByCountry_sorted {l : List IndexRecord}
    (hl : List.Pairwise (fun a b : IndexRecord => a.country ≤ b.country) l)
    (r : IndexRecord) :
    List.Pairwise (fun a b : IndexRecord => a.country ≤ b.country) (insertByCountry r l) := by
  induction l with
  | nil => simp [insertByCountry]
  | cons x rest ih =>
    rw [List.pairwise_cons] at hl
    obtain ⟨hx, hrest⟩ := hl
    by_cases h : r.country ≤ x.country
    · rw [insertByCountry, if_pos h]
      rw [List.pairwise_cons]
      refine ⟨?_, List.pairwise_cons.mpr ⟨hx, hrest⟩⟩
      intro y hy
      rcases List.mem_cons.mp hy with rfl | hy'
      · exact h
      · exact le_trans h (hx y hy')
    · rw [insertByCountry, if_neg h]
      rw [List.pairwise_cons]
      refine ⟨?_, ih hrest⟩
      intro y hy
      rcases List.mem_cons.mp ((insertByCountry_perm r rest).mem_iff.mp hy) with rfl | hy'
      · exact le_of_not_le h
      · exact hx y hy'

theorem sortByCountry_sorted (l : List IndexRecord) :
    List.Pairwise (fun a b : IndexRecord => a.country ≤ b.country) (sortByCountry l) := by
  induction l with
  | nil => simp [sortByCountry]
  | cons x rest ih =>
    rw [sortByCountry]
    exact insertByCountry_sorted ih x

/-- Every element of a list appears, with some index, in its enumeration. -/
theorem mem_enum_of_mem {α : Type} {a : α} {l : List α} (h : a ∈ l) :
    ∃ k, (k, a) ∈ l.enum := by
  obtain ⟨i, hi, rfl⟩ := List.mem_iff_getElem.mp h
  have hlen : i < l.enum.length := by simpa [List.enum_length] using hi
  refine ⟨i, ?_⟩
  have he : l.enum[i] = (i, l[i]) := List.getElem_enum l i hlen
  have := List.getElem_mem hlen
  rwa [he] at this

/-- The row of an enumeration entry is a row of the underlying list. -/
theorem snd_mem_of_mem_enum {α : Type} {p : Nat × α} {l : List α} (h : p ∈ l.enum) :
    p.2 ∈ l := by
  have hp : (p.1, p.2) ∈ l.enum := by simpa using h
  obtain ⟨hlt, hx⟩ := List.mem_enum hp
  rw [hx]
  exact List.getElem_mem hlt

/-- C1: every successful `retrieve_indices` run returns (and, as shown by
`retrieve_indices_run`, persists) the finalization of the raw scan: its rows
have pairwise-distinct `tag`s, each kept row is the first record of the scan
bearing its `tag` (so Pass 1 records win over Pass 2/3 for a shared tag),
every scanned tag is represented, rows are sorted non-decreasing by
`country`, and the row index is the dense `0..n-1`. -/
theorem retrieve_indices_invariants (tm : Bool) (w : World)
    (df : List (Nat × IndexRecord))
    (h : (retrieve_indices tm w initLog).1 = Except.ok df) :
    ∃ raw : List IndexRecord,
      (gatherResults w tm initLog).1 = Except.ok raw ∧
      df = finalizeIndices raw ∧
      (df.map (fun p => p.2.tag)).Nodup ∧
      List.Pairwise (fun p q : Nat × IndexRecord => p.2.country ≤ q.2.country) df ∧
      df.map Prod.fst = List.range df.length ∧
      (∀ p ∈ df, raw.find? (fun x => x.tag == p.2.tag) = some p.2) ∧
      (∀ r ∈ raw, ∃ p ∈ df, p.2.tag = r.tag) := by
  rw [retrieve_indices_run] at h
  rcases hg : gatherResults w tm initLog with ⟨res, l1⟩
  rw [hg] at h
  cases res with
  | error e => simp at h
  | ok raw =>
    have hdf : df = finalizeIndices raw := by
      cases tm <;> simpa using h.symm
    refine ⟨raw, rfl, hdf, ?_, ?_, ?_, ?_, ?_⟩
    · -- distinct tags
      rw [hdf]
      unfold finalizeIndices
      have hmm :
          (List.enum (sortByCountry (dropDupTag raw []))).map (fun p => p.2.tag) =
            (sortByCountry (dropDupTag raw [])).map (fun r => r.tag) := by
        rw [show (fun p : Nat × IndexRecord => p.2.tag) =
              (fun r : IndexRecord => r.tag) ∘ Prod.snd from rfl]
        rw [← List.map_map, List.enum_map_snd]
      rw [hmm]
      have hperm := (sortByCountry_perm (dropDupTag raw [])).map (fun r => r.tag)
      exact hperm.symm.nodup (dropDupTag_tags_nodup raw [])
    · -- sorted by country
      rw [hdf]
      unfold finalizeIndices
      have h1 : ((List.enum (sortByCountry (dropDupTag raw []))).map Prod.snd).Pairwise
          (fun a b : IndexRecord => a.country ≤ b.country) := by
        rw [List.enum_map_snd]
        exact sortByCountry_sorted _
      exact (List.pairwise_map
        (f := (Prod.snd : Nat × IndexRecord → IndexRecord))
        (R := fun a b : IndexRecord => a.country ≤ b.country)).mp h1
    · -- dense 0-based index
      rw [hdf]
      unfold finalizeIndices
      rw [List.enum_map_fst, List.enum_length]
    · -- each kept row is the first scan record with its tag
      intro p hp
      rw [hdf] at hp
      unfold finalizeIndices at hp
      have h1 : p.2 ∈ sortByCountry (dropDupTag raw []) := snd_mem_of_mem_enum hp
      have h2 : p.2 ∈ dropDupTag raw [] :=
        (sortByCountry_perm (dropDupTag raw [])).mem_iff.mp h1
      exact (mem_dropDupTag_find raw [] h2).2
    · -- every scanned tag is represented
      intro r hr
      rcases dropDupTag_covers raw [] hr with hseen | ⟨r', hr', htag⟩
      · simp at hseen
      · have h1 : r' ∈ sortByCountry (dropDupTag raw []) :=
          (sortByCountry_perm (dropDupTag raw [])).mem_iff.mpr hr'
        obtain ⟨k, hk⟩ := mem_enum_of_mem h1
        refine ⟨(k, r'), ?_, htag⟩
        rw [hdf]
        unfold finalizeIndices
        exact hk

/-- Witness for C1: the invariants instantiated on a concrete successful
one-record build. -/
theorem retrieve_indices_invariants_witness :
    ∃ raw : List IndexRecord,
      (gatherResults crawlWorld false initLog).1 = Except.ok raw ∧
      [(0, germanRecord)] = finalizeIndices raw ∧
      ([(0, germanRecord)].map (fun p => p.2.tag)).Nodup ∧
      List.Pairwise (fun p q : Nat × IndexRecord => p.2.country ≤ q.2.country)
        [(0, germanRecord)] ∧
      [(0, germanRecord)].map Prod.fst = List.range [(0, germanRecord)].length ∧
      (∀ p ∈ [(0, germanRecord)],
        raw.find? (fun x => x.tag == p.2.tag) = some p.2) ∧
      (∀ r ∈ raw, ∃ p ∈ [(0, germanRecord)], p.2.tag = r.tag) :=
  retrieve_indices_invariants false crawlWorld [(0, germanRecord)] rfl

/-! ### Effect discipline of the builder (towards C2)

`Tame m` says a computation `m` never writes the catalog file and — unless it
ends in a transport error — only issues requests that were answered 200.
Every component of the builder before the final persistence step is tame. -/

/-- The result is not a `ConnectionError`. -/
def NoConn (res : Except Err α) : Prop :=
  ∀ c, res ≠ Except.error (.connError c)

/-- Discipline of one computation over the effect log. -/
def Tame (m : BuildM α) : Prop :=
  ∀ log res log', m log = (res, log') →
    (∀ wr ∈ log'.writes, wr ∈ log.writes ∨ isCatalogWrite wr = false) ∧
    (NoConn res → ∀ q ∈ log'.requests, q ∈ log.requests ∨ q.2 = 200)

theorem noConn_ok (a : α) : NoConn (Except.ok a : Except Err α) := by
  intro c h
  exact Except.noConfusion h

theorem tame_of_preserves {m : BuildM α} (h : ∀ log, (m log).2 = log) : Tame m := by
  intro log res log' heq
  have hlog : log' = log := by
    have := h log
    rw [heq] at this
    exact this
  subst hlog
  exact ⟨fun wr hwr => Or.inl hwr, fun _ q hq => Or.inl hq⟩

theorem tame_pure (a : α) : Tame (pure a : BuildM α) :=
  tame_of_preserves (fun _ => rfl)

theorem tame_raise (e : Err) : Tame (raise_ e : BuildM α) :=
  tame_of_preserves (fun _ => rfl)

theorem tame_liftE (x : Except Err α) : Tame (liftE x) :=
  tame_of_preserves (fun _ => rfl)

theorem tame_getAttr (v : Option String) : Tame (getAttr v) := by
  cases v with
  | none => exact tame_raise _
  | some s => exact tame_pure _

theorem tame_lookupKey (row : List (String × String)) (k : String) :
    Tame (lookupKey row k) := by
  unfold lookupKey
  cases row.lookup k with
  | none => exact tame_raise _
  | some v => exact tame_pure _

theorem tame_bind {x : BuildM α} {f : α → BuildM β}
    (hx : Tame x) (hf : ∀ a, Tame (f a)) : Tame (x >>= f) := by
  intro log res log' heq
  rw [buildm_bind_apply] at heq
  rcases hxl : x log with ⟨xres, lm⟩
  rw [hxl] at heq
  cases xres with
  | error e =>
    injection heq with h1 h2
    subst h2
    obtain ⟨hw, hr⟩ := hx log _ _ hxl
    refine ⟨hw, fun hnc => hr ?_⟩
    intro c hcon
    have he : e = .connError c := by
      injection hcon
    exact hnc c (by rw [← h1, he])
  | ok a =>
    obtain ⟨hw1, hr1⟩ := hx log _ _ hxl
    obtain ⟨hw2, hr2⟩ := hf a lm res log' heq
    constructor
    · intro wr hwr
      rcases hw2 wr hwr with hin | hnc
      · exact hw1 wr hin
      · exact Or.inr hnc
    · intro hnc q hq
      rcases hr2 hnc q hq with hin | h200
      · exact hr1 (noConn_ok a) q hin
      · exact Or.inr h200

theorem tame_ite (c : Prop) [Decidable c] {a b : BuildM α}
    (ha : Tame a) (hb : Tame b) : Tame (if c then a else b) := by
  by_cases h : c
  · rwa [if_pos h]
  · rwa [if_neg h]

theorem tame_tellWrite {fw : FileWrite} (h : isCatalogWrite fw = false) :
    Tame (tellWrite fw) := by
  intro log res log' heq
  injection heq with h1 h2
  subst h2
  constructor
  · intro wr hwr
    simp only [tellWrite] at hwr ⊢
    rcases List.mem_append.mp hwr with hin | hone
    · exact Or.inl hin
    · rw [List.mem_singleton.mp hone]
      exact Or.inr h
  · intro _ q hq
    exact Or.inl hq

theorem getCheck_run (w : World) (url : String) (log : BuildLog) :
    getCheck w url log =
      ((if (w.pages url).status ≠ 200 then
          Except.error (.connError (w.pages url).status)
        else Except.ok (w.pages url)),
       { log with requests := log.requests ++ [(url, (w.pages url).status)] }) := by
  show (if (w.pages url).status ≠ 200 then
          raise_ (.connError (w.pages url).status)
        else pure (w.pages url) : BuildM Page)
       { log with requests := log.requests ++ [(url, (w.pages url).status)] } = _
  by_cases hs : (w.pages url).status ≠ 200
  · rw [if_pos hs, if_pos hs]
    rfl
  · rw [if_neg hs, if_neg hs]
    rfl

theorem tame_tellWrite_indexCountries (rows : List CountryRow) :
    Tame (tellWrite (.indexCountries rows)) :=
  tame_tellWrite rfl

theorem tame_getCheck (w : World) (url : String) : Tame (getCheck w url) := by
  intro log res log' heq
  rw [getCheck_run] at heq
  injection heq with h1 h2
  subst h2
  refine ⟨fun wr hwr => Or.inl hwr, ?_⟩
  intro hnc q hq
  rcases List.mem_append.mp hq with hin | hone
  · exact Or.inl hin
  · rw [List.mem_singleton.mp hone]
    by_cases hs : (w.pages url).status ≠ 200
    · exfalso
      rw [if_pos hs] at h1
      exact hnc _ h1.symm
    · exact Or.inr (by simpa using hs)

theorem tame_gatherM {f : α → BuildM (List β)} (hf : ∀ x, Tame (f x)) :
    ∀ l : List α, Tame (gatherM f l) := by
  intro l
  induction l with
  | nil => exact tame_pure _
  | cons x rest ih =>
    exact tame_bind (hf x) (fun ys => tame_bind ih (fun zs => tame_pure _))

theorem tame_retrieve_index_info (tag : String) (w : World) :
    Tame (retrieve_index_info tag w) :=
  tame_bind (tame_getCheck w _) (fun req => tame_pure _)

theorem tame_processAnchor (w : World) {getCountry : BuildM String}
    (hc : Tame getCountry) (id_ class_ market : String) (a : Anchor) :
    Tame (processAnchor w getCountry id_ class_ market a) := by
  unfold processAnchor
  cases a.href with
  | none => exact tame_pure _
  | some href =>
    apply tame_ite
    · exact tame_bind (tame_getAttr _) (fun title =>
        tame_bind (tame_getAttr _) (fun text =>
          tame_bind (tame_retrieve_index_info _ w) (fun info =>
            tame_bind hc (fun country => tame_pure _))))
    · exact tame_pure _

theorem tame_processRow (w : World) {getCountry : BuildM String}
    (hc : Tame getCountry) (class_ market : String) (row : TableRow) :
    Tame (processRow w getCountry class_ market row) :=
  tame_bind (tame_getAttr _)
    (fun idAttr => tame_gatherM (tame_processAnchor w hc _ _ _) row.anchors)

theorem tame_pass1Fetch (w : World) (country : String) (f : IndicesFilter) :
    Tame (pass1Fetch w country f) :=
  tame_bind (tame_getCheck w _)
    (fun req => tame_gatherM (tame_processRow w (tame_pure _) _ _) req.cr_rows)

theorem tame_pass1Country (w : World) (country : String) :
    Tame (pass1Country w country) :=
  tame_gatherM (tame_pass1Fetch w country) pass1Filters

theorem tame_pass1Loop (w : World) (tm : Bool) :
    ∀ cs : List String, Tame (pass1Loop w tm cs) := by
  intro cs
  induction cs with
  | nil => exact tame_pure _
  | cons c rest ih =>
    exact tame_bind (tame_pass1Country w c)
      (fun rs => tame_ite _ (tame_pure _)
        (tame_bind ih (fun rest' => tame_pure _)))

theorem tame_retrieve_index_countries (tm : Bool) (w : World) :
    Tame (retrieve_index_countries tm w) := by
  exact tame_bind (tame_getCheck w _) (fun req =>
    tame_bind
      (tame_gatherM
        (fun element =>
          tame_ite _ (tame_bind (tame_getAttr _) (fun v => tame_pure _)) (tame_pure _))
        req.optionNodes)
      (fun countries =>
        tame_ite _ (tame_raise _)
          (tame_ite _
            (tame_bind (tame_tellWrite_indexCountries _) (fun y => tame_pure _))
            (tame_bind (tame_pure ()) (fun y => tame_pure _)))))

theorem tame_loadIndexCountries (w : World) : Tame (loadIndexCountries w) := by
  apply tame_of_preserves
  intro log
  unfold loadIndexCountries
  cases indexCountriesState w log <;> rfl

theorem tame_readGlobalCountries (w : World) : Tame (readGlobalCountries w) := by
  intro log res log' heq
  simp only [readGlobalCountries] at heq
  cases hst : globalCountriesState w log with
  | some rows =>
    rw [hst] at heq
    injection heq with h1 h2
    subst h2
    exact ⟨fun wr hwr => Or.inl hwr, fun _ q hq => Or.inl hq⟩
  | none =>
    rw [hst] at heq
    rcases hrc : retrieve_index_countries false w log with ⟨rres, rlog⟩
    rw [hrc] at heq
    cases rres with
    | ok cs =>
      injection heq with h1 h2
      subst h2
      obtain ⟨hw, hr⟩ := tame_retrieve_index_countries false w log _ _ hrc
      exact ⟨hw, fun _ => hr (noConn_ok cs)⟩
    | error e =>
      injection heq with h1 h2
      subst h2
      obtain ⟨hw, hr⟩ := tame_retrieve_index_countries false w log _ _ hrc
      refine ⟨hw, fun hnc => hr ?_⟩
      intro c hcontra
      have he : e = .connError c := by injection hcontra
      exact hnc c (by rw [← h1, he])

theorem tame_loadGlobalCountries (w : World) : Tame (loadGlobalCountries w) := by
  apply tame_bind (tame_readGlobalCountries w)
  intro countries
  cases countries with
  | none => exact tame_raise _
  | some cs => exact tame_pure _

theorem tame_pass2RowsLoop (w : World) (tm : Bool)
    (countryRow : List (String × String)) (class_ : String) :
    ∀ rows : List TableRow, Tame (pass2RowsLoop w tm countryRow class_ rows) := by
  intro rows
  induction rows with
  | nil => exact tame_pure _
  | cons r rest ih =>
    exact tame_bind (tame_processRow w (tame_lookupKey _ _) _ _ r)
      (fun rs => tame_ite _ (tame_pure _)
        (tame_bind ih (fun rest' => tame_pure _)))

theorem tame_pass2Fetch (w : World) (tm : Bool)
    (countryRow : List (String × String)) (f : IndicesFilter) :
    Tame (pass2Fetch w tm countryRow f) :=
  tame_bind (tame_lookupKey _ _)
    (fun idVal => tame_bind (tame_getCheck w _)
      (fun req => tame_pass2RowsLoop w tm countryRow f.class_ req.cr12_rows))

theorem tame_pass2Loop (w : World) (tm : Bool) :
    ∀ rows : List (List (String × String)), Tame (pass2Loop w tm rows) := by
  intro rows
  induction rows with
  | nil => exact tame_pure _
  | cons row rest ih =>
    exact tame_bind (tame_gatherM (tame_pass2Fetch w tm row) pass2Filters)
      (fun rs => tame_ite _ (tame_pure _)
        (tame_bind ih (fun rest' => tame_pure _)))

theorem tame_pass3Row (w : World) (class_ : String) (row : TableRow) :
    Tame (pass3Row w class_ row) :=
  tame_bind (tame_getAttr _)
    (fun idAttr => tame_bind (tame_liftE _)
      (fun region => tame_gatherM (tame_processAnchor w (tame_pure _) _ _ _) row.anchors))

theorem tame_pass3Loop (w : World) (tm : Bool) :
    ∀ fs : List IndicesFilter, Tame (pass3Loop w tm fs) := by
  intro fs
  induction fs with
  | nil => exact tame_pure _
  | cons f rest ih =>
    exact tame_bind (tame_getCheck w _)
      (fun req => tame_bind (tame_gatherM (tame_pass3Row w f.class_) req.cr12_rows)
        (fun rs => tame_ite _ (tame_pure _)
          (tame_bind ih (fun rest' => tame_pure _))))

theorem tame_gatherResults (w : World) (tm : Bool) :
    Tame (gatherResults w tm) :=
  tame_bind (tame_loadIndexCountries w)
    (fun countries => tame_bind (tame_pass1Loop w tm _)
      (fun r1 => tame_bind (tame_loadGlobalCountries w)
        (fun globalRows => tame_bind (tame_pass2Loop w tm globalRows)
          (fun r2 => tame_bind (tame_pass3Loop w tm pass3Filters)
            (fun r3 => tame_pure _)))))

/-- C2: in any `retrieve_indices` run — its per-listing fetches and the
per-record fetches of `retrieve_index_info` alike — a logged response with
status other than 200 forces the build to abort with `ConnectionError`; a
failed build never writes the catalog file; and a successful real
(non-test-mode) build persists exactly the returned table. -/
theorem retrieve_indices_failure_semantics (tm : Bool) (w : World) :
    ((∃ q ∈ (retrieve_indices tm w initLog).2.requests, q.2 ≠ 200) →
      ∃ c, (retrieve_indices tm w initLog).1 = Except.error (.connError c)) ∧
    (∀ e, (retrieve_indices tm w initLog).1 = Except.error e →
      ∀ wr ∈ (retrieve_indices tm w initLog).2.writes, isCatalogWrite wr = false) ∧
    (∀ df, (retrieve_indices tm w initLog).1 = Except.ok df → tm = false →
      FileWrite.indices (df.map Prod.snd) ∈ (retrieve_indices tm w initLog).2.writes) := by
  rcases hg : gatherResults w tm initLog with ⟨res, l1⟩
  have hrun := retrieve_indices_run tm w initLog
  rw [hg] at hrun
  obtain ⟨hw, hr⟩ := tame_gatherResults w tm initLog _ _ hg
  cases res with
  | error e =>
    rw [hrun]
    refine ⟨?_, ?_, ?_⟩
    · rintro ⟨q, hq, hne⟩
      by_contra hnc
      push_neg at hnc
      have hnoconn : NoConn (Except.error e : Except Err (List IndexRecord)) := by
        intro c hcon
        have he : e = .connError c := by injection hcon
        exact absurd (he ▸ rfl) (hnc c)
      rcases hr hnoconn q hq with hin | h200
      · simp [initLog] at hin
      · exact hne h200
    · intro e' he' wr hwr
      rcases hw wr hwr with hin | h
      · simp [initLog] at hin
      · exact h
    · intro df hdf
      exact absurd hdf (by simp)
  | ok results =>
    cases tm with
    | false =>
      have hrun2 : retrieve_indices false w initLog =
          (Except.ok (finalizeIndices results),
           { writes := l1.writes ++
               [FileWrite.indices ((finalizeIndices results).map Prod.snd)],
             requests := l1.requests }) := by
        rw [hrun]
        rfl
      rw [hrun2]
      refine ⟨?_, ?_, ?_⟩
      · rintro ⟨q, hq, hne⟩
        exfalso
        rcases hr (noConn_ok results) q hq with hin | h200
        · simp [initLog] at hin
        · exact hne h200
      · intro e he
        exact absurd he (by simp)
      · intro df hdf _
        have hdf' : df = finalizeIndices results := by
          injection hdf with h1
          exact h1.symm
        rw [hdf']
        exact List.mem_append_right _ (List.mem_singleton.mpr rfl)
    | true =>
      have hrun2 : retrieve_indices true w initLog =
          (Except.ok (finalizeIndices results), l1) := by
        rw [hrun]
        rfl
      rw [hrun2]
      refine ⟨?_, ?_, ?_⟩
      · rintro ⟨q, hq, hne⟩
        exfalso
        rcases hr (noConn_ok results) q hq with hin | h200
        · simp [initLog] at hin
        · exact hne h200
      · intro e he
        exact absurd he (by simp)
      · intro df _ htm
        exact absurd htm (by simp)

/-- Witness for C2: the one-record build succeeds, and the theorem yields
the catalog write of the returned table. -/
theorem retrieve_indices_failure_semantics_witness :
    FileWrite.indices ([(0, germanRecord)].map Prod.snd) ∈
      (retrieve_indices false crawlWorld initLog).2.writes :=
  (retrieve_indices_failure_semantics false crawlWorld).2.2
    [(0, germanRecord)] rfl rfl

/-! ### Region resolution (C10) and optional-field degradation (C5) -/

/-- C10: the region string read from a Pass-3 flag cell determines the
record's `country`: the empty string maps to `world`, the literal
`Euro Zone` to `euro zone`, and every other region to its trimmed,
lowercased, ASCII-folded form. -/
theorem resolveRegion_mapping (w : World) (s : String) :
    resolveRegion w [some s] =
      Except.ok
        (if s = "" then "world"
         else if s = "Euro Zone" then "euro zone"
         else w.unidec (pyLower (pyStrip s))) := by
  unfold resolveRegion
  simp only [List.foldl_cons, List.foldl_nil]
  by_cases h1 : s = ""
  · subst h1
    rfl
  · rw [if_neg (by simpa using h1), if_neg h1]
    by_cases h2 : s = "Euro Zone"
    · subst h2
      rw [if_pos rfl, if_pos rfl]
      rfl
    · rw [if_neg (by simpa using h2), if_neg h2]

/-- One `retrieve_index_info` run on a 200 response, explicitly. -/
theorem retrieve_index_info_run (tag : String) (w : World) (log : BuildLog)
    (h : (w.pages ("https://www.investing.com/indices/" ++ tag)).status = 200) :
    retrieve_index_info tag w log =
      (Except.ok
        { currency := infoCurrency (w.pages ("https://www.investing.com/indices/" ++ tag)).bolds,
          symbol := infoSymbol (w.pages ("https://www.investing.com/indices/" ++ tag)).h1s },
       { log with
           requests := log.requests ++
             [("https://www.investing.com/indices/" ++ tag,
               (w.pages ("https://www.investing.com/indices/" ++ tag)).status)] }) := by
  show (getCheck w _ >>= _) log = _
  rw [buildm_bind_apply, getCheck_run, if_neg (by rw [h]; simp)]
  rfl

/-- C5 (amended): a 200 detail page with the heading or bold summary node
absent yields `none` for `symbol`/`currency` instead of raising; in Pass 3 a
row whose flag cell is present but empty degrades to the region `world` and
extraction continues — but a row with no flag span at all (or a span without
a `title`) raises an `AttributeError` that aborts the build, as the
counterexample `pass3_missing_flag_aborts` shows on the claim as stated. -/
theorem missing_optional_fields_degrade :
    (∀ (w : World) (tag : String) (log : BuildLog),
      (w.pages ("https://www.investing.com/indices/" ++ tag)).status = 200 →
      (w.pages ("https://www.investing.com/indices/" ++ tag)).h1s = [] →
      (w.pages ("https://www.investing.com/indices/" ++ tag)).bolds = [] →
      (retrieve_index_info tag w log).1 =
        Except.ok { currency := none, symbol := none }) ∧
    (∀ (w : World) (flags : List (Option String)),
      flags.foldl (fun _ t => t) none = some "" →
      resolveRegion w flags = Except.ok "world") ∧
    (∀ (w : World) (flags : List (Option String)),
      flags.foldl (fun _ t => t) none = none →
      resolveRegion w flags = Except.error Err.attrError) := by
  refine ⟨?_, ?_, ?_⟩
  · intro w tag log hst hh hb
    rw [retrieve_index_info_run tag w log hst, hh, hb]
    rfl
  · intro w flags hfold
    unfold resolveRegion
    rw [hfold]
    rfl
  · intro w flags hfold
    unfold resolveRegion
    rw [hfold]
    rfl

/-- Counterexample to C5 as stated: a Pass-3 row with an *absent* flag cell
does raise — the whole build aborts with an `AttributeError` — rather than
continuing with a degraded country. -/
theorem pass3_missing_flag_aborts :
    (noFlagWorld.pages
        "https://www.investing.com/indices/global-indices?majorIndices=on&r_id=").cr12_rows =
      [{ id_attr := some "pair_1", flags := [], anchors := [] }] ∧
    (retrieve_indices false noFlagWorld initLog).1 = Except.error Err.attrError :=
  ⟨rfl, rfl⟩

/-- Witness for C5 (amended), at concrete inputs. -/
theorem missing_optional_fields_degrade_witness :
    (retrieve_index_info "x" trivWorld initLog).1 =
      Except.ok { currency := none, symbol := none } ∧
    resolveRegion trivWorld [some ""] = Except.ok "world" ∧
    resolveRegion trivWorld [] = Except.error Err.attrError :=
  ⟨missing_optional_fields_degrade.1 trivWorld "x" initLog rfl rfl rfl,
   missing_optional_fields_degrade.2.1 trivWorld [some ""] rfl,
   missing_optional_fields_degrade.2.2 trivWorld [] rfl⟩

/-! ### `listCountries` and `unique()` (C7) -/

theorem mem_uniqueAux {x : String} :
    ∀ (l seen : List String), x ∈ uniqueAux l seen → x ∈ l ∧ x ∉ seen := by
  intro l
  induction l with
  | nil => intro seen h; simp [uniqueAux] at h
  | cons y rest ih =>
    intro seen h
    by_cases hy : y ∈ seen
    · rw [uniqueAux, if_pos hy] at h
      obtain ⟨hmem, hnot⟩ := ih seen h
      exact ⟨List.mem_cons_of_mem _ hmem, hnot⟩
    · rw [uniqueAux, if_neg hy] at h
      rcases List.mem_cons.mp h with rfl | h'
      · exact ⟨List.mem_cons_self _ _, hy⟩
      · obtain ⟨hmem, hnot⟩ := ih (y :: seen) h'
        exact ⟨List.mem_cons_of_mem _ hmem,
               fun hc => hnot (List.mem_cons_of_mem _ hc)⟩

theorem uniqueAux_sublist :
    ∀ (l seen : List String), (uniqueAux l seen).Sublist l := by
  intro l
  induction l with
  | nil => intro seen; simp [uniqueAux]
  | cons y rest ih =>
    intro seen
    by_cases hy : y ∈ seen
    · rw [uniqueAux, if_pos hy]
      exact (ih seen).cons y
    · rw [uniqueAux, if_neg hy]
      exact (ih (y :: seen)).cons₂ y

theorem uniqueAux_nodup :
    ∀ (l seen : List String), (uniqueAux l seen).Nodup := by
  intro l
  induction l with
  | nil => intro seen; simp [uniqueAux]
  | cons y rest ih =>
    intro seen
    by_cases hy : y ∈ seen
    · rw [uniqueAux, if_pos hy]
      exact ih seen
    · rw [uniqueAux, if_neg hy]
      rw [List.nodup_cons]
      refine ⟨?_, ih (y :: seen)⟩
      intro hmem
      exact (mem_uniqueAux rest (y :: seen) hmem).2 (List.mem_cons_self _ _)

theorem uniqueAux_congr :
    ∀ (l s s' : List String), (∀ y, y ∈ s ↔ y ∈ s') →
      uniqueAux l s = uniqueAux l s' := by
  intro l
  induction l with
  | nil => intro s s' _; rfl
  | cons y rest ih =>
    intro s s' hss
    by_cases hy : y ∈ s
    · rw [uniqueAux, if_pos hy, uniqueAux, if_pos ((hss y).mp hy)]
      exact ih s s' hss
    · rw [uniqueAux, if_neg hy, uniqueAux, if_neg (fun hc => hy ((hss y).mpr hc))]
      rw [ih (y :: s) (y :: s')
        (fun z => by simp only [List.mem_cons]; rw [hss z])]

theorem uniqueAux_filter :
    ∀ (l : List String) (x : String) (s : List String),
      uniqueAux l (x :: s) = uniqueAux (l.filter (fun y => y ≠ x)) s := by
  intro l
  induction l with
  | nil => intro x s; rfl
  | cons y rest ih =>
    intro x s
    by_cases hyx : y = x
    · subst hyx
      rw [uniqueAux, if_pos (List.mem_cons_self _ _)]
      rw [List.filter_cons_of_neg (by simp)]
      exact ih y s
    · rw [List.filter_cons_of_pos (by simpa using hyx)]
      by_cases hys : y ∈ s
      · rw [uniqueAux, if_pos (List.mem_cons_of_mem _ hys)]
        rw [uniqueAux, if_pos hys]
        exact ih x s
      · rw [uniqueAux, if_neg (by
          intro hc
          rcases List.mem_cons.mp hc with h' | h'
          · exact hyx h'
          · exact hys h')]
        rw [uniqueAux, if_neg hys]
        congr 1
        rw [uniqueAux_congr rest (y :: x :: s) (x :: y :: s)
          (fun z => by simp only [List.mem_cons]; tauto)]
        exact ih x (y :: s)

/-- The first-appearance recursion of `unique()`. -/
theorem uniqueFirst_cons (x : String) (rest : List String) :
    uniqueFirst (x :: rest) = x :: uniqueFirst (rest.filter (fun y => y ≠ x)) := by
  unfold uniqueFirst
  rw [uniqueAux, if_neg (List.not_mem_nil x)]
  congr 1
  exact uniqueAux_filter rest x []

/-- Counterexample to C7 as stated: a catalog file that is present but has
no rows makes `index_countries_as_list` return the empty list — it does not
fail with an empty-data error (the `indices is None` guard can never fire,
since loading yields a table, never `None`). -/
theorem index_countries_empty_returns_empty :
    emptyCatalogWorld.indices_file = some [] ∧
    index_countries_as_list emptyCatalogWorld initLog = (Except.ok [], initLog) :=
  ⟨rfl, rfl⟩

/-- C7 (amended): `index_countries_as_list` returns the distinct `country`
values of the persisted catalog in file order of first appearance
(`uniqueFirst` is a `Nodup` sublist obeying the first-appearance recursion),
and fails with a not-found error when the catalog file is absent; a loaded
table with no rows yields the empty list, not an error, because the
empty-data guard compares against `None` and loading never yields `None`. -/
theorem index_countries_as_list_spec :
    (∀ (w : World) (log : BuildLog), catalogState w log = none →
      index_countries_as_list w log =
        (Except.error (.fileNotFoundError "ERR#0059: indices file not found or errored."),
         log)) ∧
    (∀ (w : World) (log : BuildLog) (rows : List IndexRecord),
      catalogState w log = some rows →
      index_countries_as_list w log =
        (Except.ok (uniqueFirst (rows.map (fun r => r.country))), log)) ∧
    (∀ l : List String, (uniqueFirst l).Sublist l) ∧
    (∀ l : List String, (uniqueFirst l).Nodup) ∧
    uniqueFirst [] = [] ∧
    (∀ (x : String) (rest : List String),
      uniqueFirst (x :: rest) = x :: uniqueFirst (rest.filter (fun y => y ≠ x))) := by
  refine ⟨?_, ?_, fun l => uniqueAux_sublist l [], fun l => uniqueAux_nodup l [],
          rfl, uniqueFirst_cons⟩
  · intro w log hstate
    unfold index_countries_as_list
    rw [hstate]
  · intro w log rows hstate
    unfold index_countries_as_list
    rw [hstate]

/-- Witness for C7 (amended), on a concrete one-row catalog. -/
theorem index_countries_as_list_spec_witness :
    index_countries_as_list germanyWorld initLog =
      (Except.ok (uniqueFirst ([germanRecord].map (fun r => r.country))), initLog) :=
  index_countries_as_list_spec.2.1 germanyWorld initLog [germanRecord] rfl

/-! ### Query-layer runs on a present catalog (towards C3, C4, C8) -/

theorem readOrBuild_present {w : World} {log : BuildLog} {rows : List IndexRecord}
    (h : catalogState w log = some rows) :
    readOrBuild w log = (Except.ok (some rows), log) := by
  unfold readOrBuild
  rw [h]

theorem loadIndices_present {w : World} {log : BuildLog} {rows : List IndexRecord}
    (h : catalogState w log = some rows) :
    loadIndices w log = (Except.ok rows, log) := by
  show (readOrBuild w >>= _) log = _
  rw [buildm_bind_apply, readOrBuild_present h]
  rfl

theorem index_countries_as_list_present {w : World} {log : BuildLog}
    {rows : List IndexRecord} (h : catalogState w log = some rows) :
    index_countries_as_list w log =
      (Except.ok (uniqueFirst (rows.map (fun r => r.country))), log) := by
  unfold index_countries_as_list
  rw [h]

theorem indices_as_df_run {w : World} {log : BuildLog} {rows : List IndexRecord}
    (h : catalogState w log = some rows) (c : String) :
    indices_as_df (some c) w log =
      ((if w.unidec (pyLower c) ∈ uniqueFirst (rows.map (fun r => r.country)) then
          Except.ok (some ((rows.map dropTagId).filter
            (fun r => r.country = w.unidec (pyLower c))))
        else Except.ok none), log) := by
  show (loadIndices w >>= _) log = _
  rw [buildm_bind_apply, loadIndices_present h]
  show (index_countries_as_list w >>= _) log = _
  rw [buildm_bind_apply, index_countries_as_list_present h]
  show (if w.unidec (pyLower c) ∈ uniqueFirst (rows.map (fun r => r.country)) then
          pure (some ((rows.map dropTagId).filter
            (fun r => r.country = w.unidec (pyLower c))))
        else pure none : BuildM (Option (List QueryRecord))) log = _
  by_cases hmem : w.unidec (pyLower c) ∈ uniqueFirst (rows.map (fun r => r.country))
  · rw [if_pos hmem, if_pos hmem]
    rfl
  · rw [if_neg hmem, if_neg hmem]
    rfl

theorem indices_as_list_run {w : World} {log : BuildLog} {rows : List IndexRecord}
    (h : catalogState w log = some rows) (c : String) :
    indices_as_list (some c) w log =
      ((if w.unidec (pyLower c) ∈ uniqueFirst (rows.map (fun r => r.country)) then
          Except.ok (some (((rows.map dropTagId).filter
            (fun r => r.country = w.unidec (pyLower c))).map (fun r => r.name)))
        else Except.ok none), log) := by
  show (loadIndices w >>= _) log = _
  rw [buildm_bind_apply, loadIndices_present h]
  show (index_countries_as_list w >>= _) log = _
  rw [buildm_bind_apply, index_countries_as_list_present h]
  show (if w.unidec (pyLower c) ∈ uniqueFirst (rows.map (fun r => r.country)) then
          pure (some (((rows.map dropTagId).filter
            (fun r => r.country = w.unidec (pyLower c))).map (fun r => r.name)))
        else pure none : BuildM (Option (List String))) log = _
  by_cases hmem : w.unidec (pyLower c) ∈ uniqueFirst (rows.map (fun r => r.country))
  · rw [if_pos hmem, if_pos hmem]
    rfl
  · rw [if_neg hmem, if_neg hmem]
    rfl

theorem indices_as_dict_run {w : World} {log : BuildLog} {rows : List IndexRecord}
    (h : catalogState w log = some rows) (c : String) :
    indices_as_dict (some c) none false w log =
      ((if c ∈ uniqueFirst (rows.map (fun r => r.country)) then
          Except.ok (some (DictOut.records
            (((rows.map dropTagId).filter
                (fun r => r.country = w.unidec (pyLower c))).map
              (projectRecord queryColumns))))
        else Except.ok none), log) := by
  show (loadIndices w >>= _) log = _
  rw [buildm_bind_apply, loadIndices_present h]
  show (if ¬ ((queryColumns : List String).all (fun col => col ∈ queryColumns)) then _
        else _ : BuildM (Option DictOut)) log = _
  rw [if_neg (by simp)]
  show (index_countries_as_list w >>= _) log = _
  rw [buildm_bind_apply, index_countries_as_list_present h]
  show (if c ∈ uniqueFirst (rows.map (fun r => r.country)) then
          (fun sel =>
            if (false : Bool) then
              pure (some (DictOut.jsonDoc (sel.map (projectRecord queryColumns))))
            else
              pure (some (DictOut.records (sel.map (projectRecord queryColumns)))))
            ((rows.map dropTagId).filter (fun r => r.country = w.unidec (pyLower c)))
        else pure none : BuildM (Option DictOut)) log = _
  by_cases hmem : c ∈ uniqueFirst (rows.map (fun r => r.country))
  · rw [if_pos hmem, if_pos hmem]
    rfl
  · rw [if_neg hmem, if_neg hmem]
    rfl

/-- C3: for every `country` string given to `indices_as_df` or
`indices_as_list` over a present catalog: when the normalized argument is
among `index_countries_as_list()`'s output, the result holds exactly the
catalog rows whose `country` equals the normalized argument (resp. their
names); when it is not, the call returns Python `None` — a row-less result,
not an error. -/
theorem query_country_filtering (w : World) (log : BuildLog) (country : String)
    (rows : List IndexRecord) (h : catalogState w log = some rows) :
    (w.unidec (pyLower country) ∈ uniqueFirst (rows.map (fun r => r.country)) →
      indices_as_df (some country) w log =
        (Except.ok (some ((rows.map dropTagId).filter
          (fun r => r.country = w.unidec (pyLower country)))), log) ∧
      indices_as_list (some country) w log =
        (Except.ok (some (((rows.map dropTagId).filter
          (fun r => r.country = w.unidec (pyLower country))).map (fun r => r.name))), log)) ∧
    (w.unidec (pyLower country) ∉ uniqueFirst (rows.map (fun r => r.country)) →
      indices_as_df (some country) w log = (Except.ok none, log) ∧
      indices_as_list (some country) w log = (Except.ok none, log)) := by
  constructor
  · intro hmem
    rw [indices_as_df_run h country, indices_as_list_run h country,
        if_pos hmem, if_pos hmem]
    exact ⟨rfl, rfl⟩
  · intro hmem
    rw [indices_as_df_run h country, indices_as_list_run h country,
        if_neg hmem, if_neg hmem]
    exact ⟨rfl, rfl⟩

/-- Witness for C3: on the one-row German catalog, `"germany"` is matched
and `"poland"` yields the row-less `none` result. -/
theorem query_country_filtering_witness :
    (indices_as_df (some "germany") germanyWorld initLog =
      (Except.ok (some (([germanRecord].map dropTagId).filter
        (fun r => r.country = germanyWorld.unidec (pyLower "germany")))), initLog)) ∧
    (indices_as_df (some "poland") germanyWorld initLog = (Except.ok none, initLog)) :=
  ⟨((query_country_filtering germanyWorld initLog "germany" [germanRecord] rfl).1
      (by decide)).1,
   ((query_country_filtering germanyWorld initLog "poland" [germanRecord] rfl).2
      (by decide)).1⟩

/-- Counterexample to C4 as stated: the two functions do not treat the
argument identically in the membership check.  `indices_as_df` normalizes
`"Germany"` before the check and returns the German row; `indices_as_dict`
checks the raw `"Germany"` against the lowercase country list, misses, and
selects no records. -/
theorem dict_df_membership_mismatch :
    (indices_as_df (some "Germany") germanyWorld initLog).1 =
      Except.ok (some [dropTagId germanRecord]) ∧
    (indices_as_dict (some "Germany") none false germanyWorld initLog).1 =
      Except.ok none :=
  ⟨rfl, rfl⟩

/-- C4 (amended): `indices_as_dict` filters rows exactly as `indices_as_df`
(equality against the normalized country), but its membership check uses the
raw argument where `indices_as_df` normalizes first; the two select the same
records whenever the argument is a fixed point of normalization, while a
non-normalized argument can pass `indices_as_df`'s check yet make
`indices_as_dict` return `None` (see `dict_df_membership_mismatch`). -/
theorem dict_matches_df_on_normalized (w : World) (log : BuildLog) (c : String)
    (rows : List IndexRecord) (h : catalogState w log = some rows)
    (hnorm : w.unidec (pyLower c) = c) :
    (c ∈ uniqueFirst (rows.map (fun r => r.country)) →
      indices_as_df (some c) w log =
        (Except.ok (some ((rows.map dropTagId).filter
          (fun r => r.country = w.unidec (pyLower c)))), log) ∧
      indices_as_dict (some c) none false w log =
        (Except.ok (some (DictOut.records (((rows.map dropTagId).filter
          (fun r => r.country = w.unidec (pyLower c))).map
            (projectRecord queryColumns)))), log)) ∧
    (c ∉ uniqueFirst (rows.map (fun r => r.country)) →
      indices_as_df (some c) w log = (Except.ok none, log) ∧
      indices_as_dict (some c) none false w log = (Except.ok none, log)) := by
  constructor
  · intro hmem
    have hmem' : w.unidec (pyLower c) ∈ uniqueFirst (rows.map (fun r => r.country)) := by
      rw [hnorm]
      exact hmem
    rw [indices_as_df_run h c, if_pos hmem', indices_as_dict_run h c, if_pos hmem]
    exact ⟨rfl, rfl⟩
  · intro hmem
    have hmem' : w.unidec (pyLower c) ∉ uniqueFirst (rows.map (fun r => r.country)) := by
      rw [hnorm]
      exact hmem
    rw [indices_as_df_run h c, if_neg hmem', indices_as_dict_run h c, if_neg hmem]
    exact ⟨rfl, rfl⟩

/-- Witness for C4 (amended): on the one-row German catalog with the
already-normalized argument `"germany"`, both functions select the same
record. -/
theorem dict_matches_df_on_normalized_witness :
    indices_as_df (some "germany") germanyWorld initLog =
      (Except.ok (some (([germanRecord].map dropTagId).filter
        (fun r => r.country = germanyWorld.unidec (pyLower "germany")))), initLog) ∧
    indices_as_dict (some "germany") none false germanyWorld initLog =
      (Except.ok (some (DictOut.records ((([germanRecord].map dropTagId).filter
        (fun r => r.country = germanyWorld.unidec (pyLower "germany"))).map
          (projectRecord queryColumns)))), initLog) :=
  (dict_matches_df_on_normalized germanyWorld initLog "germany" [germanRecord]
    rfl rfl).1 (by decide)

/-- Counterexample to C8 as stated: with the catalog file absent, the call
still fails with the column `ValueError`, but it is *not* mutation-free —
the implicit rebuild has already overwritten the catalog file before the
validation runs. -/
theorem dict_validation_writes_catalog :
    crawlWorld.indices_file = none ∧
    (indices_as_dict none (some ["bogus"]) false crawlWorld initLog).1 =
      Except.error (.valueError
        "ERR#0023: specified columns does not exist, available columns are <country, name, full_name, symbol, currency, class, market>") ∧
    (indices_as_dict none (some ["bogus"]) false crawlWorld initLog).2.writes =
      [FileWrite.indices [germanRecord]] :=
  ⟨rfl, rfl, rfl⟩

/-- C8 (amended): when the catalog file is present, a `columns` list holding
any name outside {country, name, full_name, symbol, currency, class, market}
— including `tag` and `id`, which are dropped before validation — makes
`indices_as_dict` fail with the column `ValueError` and leaves the effect
log untouched (no writes, no requests); when the file is absent, the
implicit rebuild persists a fresh catalog (or fails on its own) before the
validation is reached, as `dict_validation_writes_catalog` shows. -/
theorem dict_invalid_columns_validation (w : World) (log : BuildLog)
    (country : Option String) (columns : List String) (as_json : Bool)
    (rows : List IndexRecord) (h : catalogState w log = some rows)
    (hbad : ¬ (columns.all (fun col => col ∈ queryColumns) = true)) :
    indices_as_dict country (some columns) as_json w log =
      (Except.error (.valueError
        "ERR#0023: specified columns does not exist, available columns are <country, name, full_name, symbol, currency, class, market>"),
       log) := by
  show (loadIndices w >>= _) log = _
  rw [buildm_bind_apply, loadIndices_present h]
  show (if ¬ (columns.all (fun col => col ∈ queryColumns)) then
          (raise_ (.valueError
            "ERR#0023: specified columns does not exist, available columns are <country, name, full_name, symbol, currency, class, market>")
           : BuildM (Option DictOut))
        else _) log = _
  rw [if_pos hbad]
  rfl

/-- Witness for C8 (amended): requesting the dropped column `tag` on a
present catalog fails with the `ValueError` and changes nothing. -/
theorem dict_invalid_columns_validation_witness :
    indices_as_dict none (some ["tag"]) false germanyWorld initLog =
      (Except.error (.valueError
        "ERR#0023: specified columns does not exist, available columns are <country, name, full_name, symbol, currency, class, market>"),
       initLog) :=
  dict_invalid_columns_validation germanyWorld initLog none ["tag"] false
    [germanRecord] rfl (by decide)

/-- Counterexample to C6 as stated: in a world whose single-country file is
absent but whose listing page would let `retrieve_index_countries` succeed,
`retrieve_indices` fails immediately with the lookup `IOError` and an
untouched effect log — no Country Lister is invoked at all. -/
theorem missing_country_file_aborts_without_lister :
    noCountriesFileWorld.index_countries_file = none ∧
    retrieve_indices false noCountriesFileWorld initLog =
      (Except.error (.ioError
        "ERR#0036: equity countries list not found or unable to retrieve."),
       initLog) ∧
    (retrieve_index_countries false noCountriesFileWorld initLog).1 =
      Except.ok [{ country := "spain", country_name := "spain" }] :=
  ⟨rfl, rfl, rfl⟩

/-- C6 (amended): only the *global* country file has a lister fallback.  A
missing `index_countries.csv` makes the build fail immediately with the
lookup error, invoking nothing; a missing `global_indices_countries.csv`
synchronously invokes `retrieve_index_countries` — the single-country
lister, not the global one — and uses its rows (which lack the `id` column),
so Pass 2 then fails on its first row with `KeyError('id')`; a fallback run
that finds no country fails inside the lister itself. -/
theorem country_file_fallback_behaviour :
    (∀ (tm : Bool) (w : World) (log : BuildLog),
      indexCountriesState w log = none →
      retrieve_indices tm w log =
        (Except.error (.ioError
          "ERR#0036: equity countries list not found or unable to retrieve."),
         log)) ∧
    (∀ (w : World) (log : BuildLog),
      globalCountriesState w log = none →
      readGlobalCountries w log =
        (match retrieve_index_countries false w log with
         | (Except.ok cs, log') => (Except.ok (some (rowsOfCountry cs)), log')
         | (Except.error e, log') => (Except.error e, log'))) ∧
    (∀ (w : World) (tm : Bool) (c : CountryRow) (rest : List CountryRow)
      (log : BuildLog),
      pass2Loop w tm (rowsOfCountry (c :: rest)) log =
        (Except.error (.keyError "id"), log)) := by
  refine ⟨?_, ?_, ?_⟩
  · intro tm w log hstate
    have h1 : loadIndexCountries w log =
        (Except.error (.ioError
          "ERR#0036: equity countries list not found or unable to retrieve."),
         log) := by
      unfold loadIndexCountries
      rw [hstate]
    have h2 : gatherResults w tm log =
        (Except.error (.ioError
          "ERR#0036: equity countries list not found or unable to retrieve."),
         log) := by
      show (loadIndexCountries w >>= _) log = _
      rw [buildm_bind_apply, h1]
    rw [retrieve_indices_run, h2]
  · intro w log hstate
    unfold readGlobalCountries
    rw [hstate]
  · intro w tm c rest log
    rfl

/-- Witness for C6 (amended): the immediate-failure branch at the concrete
world with the single-country file absent. -/
theorem country_file_fallback_behaviour_witness :
    retrieve_indices false noCountriesFileWorld initLog =
      (Except.error (.ioError
        "ERR#0036: equity countries list not found or unable to retrieve."),
       initLog) :=
  country_file_fallback_behaviour.1 false noCountriesFileWorld initLog rfl

end Investpy
